import Mathlib

/-!
Shallow embedding of `src/regexp/regexp-utils.cc` (class `RegExpUtils`), the
RegExp execution protocol layer of the repository.

The host object model (generic property get/set, callable invocation,
identity and structural type tags, the internal `lastIndex` slot of a
built-in regexp) is a collaborator of this file, not part of it; it is
modelled as an abstract `Host` structure over an abstract heap-state type
`σ`, so that every re-entrancy point of the source (property lookups and
callable invocations that may run arbitrary user code and mutate the heap)
is an explicit state transformer that may also throw.  Fallible operations
return `Except JSError`.  All definitions below translate the source
functions line by line.
-/

/-- A string is an immutable sequence of 16-bit code units
(`String::Get` returns `uint16_t`); modelled as a list of naturals. -/
abbrev Str := List Nat

/-- JavaScript values, as far as this layer inspects them.  `obj id` is an
object-shaped value (a `JSReceiver`) identified by an opaque id; numbers
keep only what the length coercion distinguishes (integers and NaN). -/
inductive Value where
  | undefined
  | null
  | boolV (b : Bool)
  | intV (n : Int)
  | nanV
  | strV (s : Str)
  | obj (id : Nat)
  deriving DecidableEq, Repr

/-- `Object::IsJSReceiver`: true exactly for object-shaped values. -/
def Value.isJSReceiver : Value → Bool
  | .obj _ => true
  | _ => false

/-- The property keys this file ever looks up: the string key
`NewStringFromAsciiChecked("exec")`, the string key
`factory->lastIndex_string()`, and the well-known symbol
`factory->match_symbol()`. -/
inductive PropKey where
  | execStr
  | lastIndexStr
  | matchSymbol
  deriving DecidableEq, Repr

/-- The message templates this file throws with. -/
inductive MessageTemplate where
  | kInvalidRegExpExecResult
  | kIncompatibleMethodReceiver
  deriving DecidableEq, Repr

/-- Errors: TypeErrors thrown by this layer (`THROW_NEW_ERROR` with a
message template and its arguments), and arbitrary exceptions propagated
from collaborator calls (`ASSIGN_RETURN_ON_EXCEPTION`). -/
inductive JSError where
  | typeError (t : MessageTemplate) (args : List Value)
  | thrown (v : Value)
  deriving DecidableEq, Repr

/-- `LanguageMode` of a property store (`SLOPPY` / `STRICT`). -/
inductive LanguageMode where
  | sloppy
  | strict
  deriving DecidableEq, Repr

/-- ASCII contents of a Lean string literal, as code units. -/
def asciiStr (s : String) : Str := s.data.map Char.toNat

/-- The host object model collaborator, over an abstract heap state `σ`.
`getProperty`, `setProperty` and `call` may run arbitrary user code: they
transform the state and may throw.  `isCallable` and `isJSRegExp` are
per-value structural tags (immutable over the life of a value);
`hasInitialRegExpMap` is the identity check
`recv->map() == isolate->regexp_function()->initial_map()` and is
state-dependent because a map can change.  `regexpExecFunction` is
`isolate->regexp_exec_function()`, and the two slot operations are
`JSRegExp::LastIndex` / `JSRegExp::SetLastIndex` (direct internal-slot
access, never failing; the contract guarantees the slot holds an
integer). -/
structure Host (σ : Type) where
  isCallable : Value → Bool
  isJSRegExp : Value → Bool
  hasInitialRegExpMap : σ → Value → Bool
  getProperty : σ → Value → PropKey → Except JSError (Value × σ)
  setProperty : σ → LanguageMode → Value → PropKey → Value → Except JSError (Value × σ)
  call : σ → Value → Value → List Value → Except JSError (Value × σ)
  regexpExecFunction : Value
  lastIndexSlot : σ → Value → Int
  setLastIndexSlot : σ → Value → Int → σ

/-- Modelled from the spec: `Object::ToLength` is host code outside the
provided sources.  The spec states the rule: "coerced through a
length-conversion rule (`ToLength`: clamp to `[0, 2^53-1]`,
non-numeric/NaN → 0)". -/
def ToLength : Value → Int
  | .intV n => max 0 (min n (2 ^ 53 - 1))
  | _ => 0

/-- Modelled from the spec: `Object::BooleanValue` is host code outside the
provided sources; the spec asks for the value "coerced to boolean"
(ECMAScript ToBoolean). -/
def BooleanValue : Value → Bool
  | .undefined => false
  | .null => false
  | .boolV b => b
  | .intV n => decide (n ≠ 0)
  | .nanV => false
  | .strV s => decide (s ≠ [])
  | .obj _ => true

/-- The largest Smi payload: `Handle<Smi>::cast` (host code outside the
provided sources) is valid only for values the host represents as small
integers, at most a signed 32-bit payload (the default 64-bit build;
31-bit-Smi builds are narrower still, so no build represents a value
above this bound as a Smi).  `Object::ToLength` returns a Smi only when
its result fits this range and a heap number otherwise. -/
def kSmiMaxValue : Int := 2 ^ 31 - 1

/-- The smallest Smi payload (see `kSmiMaxValue`). -/
def kSmiMinValue : Int := -(2 ^ 31)

/-- `Handle<Smi>::cast(obj)->value()` applied to a number object: the
integer payload when the number is a Smi, and `none` — a checked cast
failure, the program has no defined result — otherwise. -/
def smiCast (n : Int) : Option Int :=
  if kSmiMinValue ≤ n ∧ n ≤ kSmiMaxValue then some n else none

/-- The `RegExpLastMatchInfo` buffer, laid out as in
`RegExpImpl::{kLastCaptureCount, kLastSubject, kLastInput, kFirstCapture}`:
a capture-count field, the last subject string, the last input value, and
the flat sequence of capture offsets. -/
structure MatchInfo where
  lastCaptureCount : Int
  lastSubject : Str
  lastInput : Value
  captures : List Int
  deriving DecidableEq, Repr

/-- `Factory::NewSubString(subject, start, end)`: the code units of
`subject` in positions `[start, end)`. -/
def NewSubString (s : Str) (a b : Int) : Str :=
  (s.take b.toNat).drop a.toNat

namespace RegExpUtils

/-- `RegExpUtils::GetLastMatchNumberOfCaptures`: the Smi at field
`kLastCaptureCount` (the `GetElement` read is `ToHandleChecked`, i.e. it
cannot fail). -/
def GetLastMatchNumberOfCaptures (m : MatchInfo) : Int :=
  m.lastCaptureCount

/-- `RegExpUtils::GetLastMatchSubject`: the string at field
`kLastSubject`. -/
def GetLastMatchSubject (m : MatchInfo) : Str :=
  m.lastSubject

/-- `RegExpUtils::GetLastMatchInput`: the value at field `kLastInput`. -/
def GetLastMatchInput (m : MatchInfo) : Value :=
  m.lastInput

/-- `RegExpUtils::GetLastMatchCapture`: the Smi at field
`kFirstCapture + i`.  The checked element read of the source is modelled for
in-range indices (the buffer invariant `captures.length = captureCount`
makes every read of the algorithm in-range); a default of `0` stands in
for the unreachable out-of-range case. -/
def GetLastMatchCapture (m : MatchInfo) (i : Int) : Int :=
  m.captures.getD i.toNat 0

/-- `RegExpUtils::GenericCaptureGetter` with the `ok` out-parameter
supplied: returns the pair (capture substring, `*ok`). -/
def GenericCaptureGetter (m : MatchInfo) (capture : Int) : Str × Bool :=
  let index := capture * 2
  if index ≥ GetLastMatchNumberOfCaptures m then
    ([], false)
  else
    let matchStart := GetLastMatchCapture m index
    let matchEnd := GetLastMatchCapture m (index + 1)
    if matchStart = -1 ∨ matchEnd = -1 then
      ([], false)
    else
      (NewSubString (GetLastMatchSubject m) matchStart matchEnd, true)

/-- `RegExpUtils::SetLastIndex`: on the initial-map fast path write the
internal slot and return the receiver; otherwise delegate to the generic host `Object::SetProperty` on key `lastIndex` in STRICT mode. -/
def SetLastIndex {σ : Type} (h : Host σ) (s : σ) (recv : Value) (value : Int) :
    Except JSError (Value × σ) :=
  if h.hasInitialRegExpMap s recv then
    Except.ok (recv, h.setLastIndexSlot s recv value)
  else
    h.setProperty s LanguageMode.strict recv PropKey.lastIndexStr (Value.intV value)

/-- `RegExpUtils::GetLastIndex`: on the initial-map fast path read the
internal slot; otherwise delegate to the generic host
`Object::GetProperty` on key `lastIndex`. -/
def GetLastIndex {σ : Type} (h : Host σ) (s : σ) (recv : Value) :
    Except JSError (Value × σ) :=
  if h.hasInitialRegExpMap s recv then
    Except.ok (Value.intV (h.lastIndexSlot s recv), s)
  else
    h.getProperty s recv PropKey.lastIndexStr

/-- `RegExpUtils::RegExpExec` (ES#sec-regexpexec).  If no exec method was
supplied (`exec->IsUndefined`), look up the `exec` property of the receiver
(errors propagate).  If the resolved value is callable, invoke it with the
receiver as context and the string as sole argument; a normal result that
is neither a `JSReceiver` nor `null` raises
`kInvalidRegExpExecResult`, otherwise the result is returned unchanged,
and call errors propagate.  If it is not callable, a receiver that is not
a `JSRegExp` raises `kIncompatibleMethodReceiver` naming
`"RegExp.prototype.exec"`; otherwise the built-in
`regexp_exec_function` is invoked on the receiver and string. -/
def RegExpExec {σ : Type} (h : Host σ) (s : σ) (regexp : Value) (string : Str)
    (exec : Value) : Except JSError (Value × σ) :=
  match (if exec = Value.undefined then h.getProperty s regexp PropKey.execStr
         else Except.ok (exec, s)) with
  | Except.error e => Except.error e
  | Except.ok (execV, s) =>
    if h.isCallable execV then
      match h.call s execV regexp [Value.strV string] with
      | Except.error e => Except.error e
      | Except.ok (result, s) =>
        if ¬ result.isJSReceiver ∧ result ≠ Value.null then
          Except.error (JSError.typeError MessageTemplate.kInvalidRegExpExecResult [])
        else
          Except.ok (result, s)
    else if ¬ h.isJSRegExp regexp then
      Except.error (JSError.typeError MessageTemplate.kIncompatibleMethodReceiver
        [Value.strV (asciiStr "RegExp.prototype.exec"), regexp])
    else
      h.call s h.regexpExecFunction regexp [Value.strV string]

/-- `RegExpUtils::IsRegExp`: primitives are not regexps; the initial-map
identity fast path answers true without a property lookup; otherwise the
well-known match symbol is looked up (errors propagate), a defined value
answers with its boolean coercion, and an undefined value falls back to
the structural `IsJSRegExp` tag. -/
def IsRegExp {σ : Type} (h : Host σ) (s : σ) (object : Value) :
    Except JSError (Bool × σ) :=
  if ¬ object.isJSReceiver then
    Except.ok (false, s)
  else if h.hasInitialRegExpMap s object then
    Except.ok (true, s)
  else
    match h.getProperty s object PropKey.matchSymbol with
    | Except.error e => Except.error e
    | Except.ok (vmatch, s) =>
      if vmatch ≠ Value.undefined then
        Except.ok (BooleanValue vmatch, s)
      else
        Except.ok (h.isJSRegExp object, s)

/-- Total model of `String::Get`: the code unit at position `i`, with a
default of `0` outside the bounds (the source only calls `Get` under
bounds guards; the checked variant below tracks exactly which positions
are read). -/
def strGetD (s : Str) (i : Int) : Nat :=
  if 0 ≤ i ∧ i < (s.length : Int) then s.getD i.toNat 0 else 0

/-- `RegExpUtils::AdvanceStringIndex` (ES#sec-advancestringindex):
increment 1, except that in unicode mode an in-bounds leading surrogate
(`0xD800..0xDBFF`) followed by an existing trailing surrogate
(`0xDC00..0xDFFF`) gives increment 2. -/
def AdvanceStringIndex (string : Str) (index : Int) (unicode : Bool) : Int :=
  if unicode ∧ index < (string.length : Int) then
    let first := strGetD string index
    if 0xD800 ≤ first ∧ first ≤ 0xDBFF ∧ (string.length : Int) > index + 1 then
      let second := strGetD string (index + 1)
      if 0xDC00 ≤ second ∧ second ≤ 0xDFFF then 2 else 1
    else 1
  else 1

/-- Bounds-checked model of `String::Get`: `none` signals an
out-of-bounds access. -/
def strGet (s : Str) (i : Int) : Option Nat :=
  if 0 ≤ i ∧ i < (s.length : Int) then some (s.getD i.toNat 0) else none

/-- `AdvanceStringIndex` instrumented with the bounds-checked string read:
`none` exactly when some `String::Get` of the source would read out of
bounds, `some increment` otherwise. -/
def AdvanceStringIndexChecked (string : Str) (index : Int) (unicode : Bool) :
    Option Int :=
  if unicode ∧ index < (string.length : Int) then
    match strGet string index with
    | none => none
    | some first =>
      if 0xD800 ≤ first ∧ first ≤ 0xDBFF ∧ (string.length : Int) > index + 1 then
        match strGet string (index + 1) with
        | none => none
        | some second =>
          some (if 0xDC00 ≤ second ∧ second ≤ 0xDFFF then 2 else 1)
      else some 1
  else some 1

/-- `RegExpUtils::SetAdvancedStringIndex`: read the `lastIndex`
property of the receiver via the generic `Object::GetProperty` (errors
propagate), coerce it through `Object::ToLength`, read the coerced value
back through `Handle<Smi>::cast(last_index_obj)->value()` — the cast is
modelled by `smiCast`, and `none` is the invalid cast on a coercion
result that is not a Smi — then advance by `AdvanceStringIndex` and
store the sum through `SetLastIndex`. -/
def SetAdvancedStringIndex {σ : Type} (h : Host σ) (s : σ) (regexp : Value)
    (string : Str) (unicode : Bool) : Option (Except JSError (Value × σ)) :=
  match h.getProperty s regexp PropKey.lastIndexStr with
  | Except.error e => some (Except.error e)
  | Except.ok (lastIndexObj, s) =>
    match smiCast (ToLength lastIndexObj) with
    | none => none
    | some lastIndex =>
      let newLastIndex : Int :=
        lastIndex + AdvanceStringIndex string lastIndex unicode
      some (SetLastIndex h s regexp newLastIndex)

end RegExpUtils

/-- Decidable equality of `Except` results, used to evaluate the protocol
functions at concrete hosts. -/
instance {ε α : Type} [DecidableEq ε] [DecidableEq α] : DecidableEq (Except ε α)
  | Except.error a, Except.error b =>
    if h : a = b then Decidable.isTrue (by rw [h])
    else Decidable.isFalse (fun hh => h (by cases hh; rfl))
  | Except.error _, Except.ok _ => Decidable.isFalse (fun hh => Except.noConfusion hh)
  | Except.ok _, Except.error _ => Decidable.isFalse (fun hh => Except.noConfusion hh)
  | Except.ok a, Except.ok b =>
    if h : a = b then Decidable.isTrue (by rw [h])
    else Decidable.isFalse (fun hh => h (by cases hh; rfl))

/-- A minimal concrete heap state for evaluating the protocol functions:
the internal `lastIndex` slot of the single built-in regexp. -/
structure TestState where
  slot : Int
  deriving DecidableEq, Repr

/-- Property reads of the concrete test host: the `lastIndex` property of
any receiver mirrors the slot; `exec` and the match symbol are absent. -/
def testPropRead (st : TestState) (_v : Value) (k : PropKey) : Value :=
  match k with
  | PropKey.lastIndexStr => Value.intV st.slot
  | PropKey.execStr => Value.undefined
  | PropKey.matchSymbol => Value.undefined

/-- A concrete host for evaluating the protocol functions: `obj 0` is the
built-in regexp (initial map), `obj 1` is a callable function returning
the number 42, `obj 9` is the built-in exec function (returning `null`);
property reads never throw and never mutate, property writes return the
written value. -/
def testHost : Host TestState where
  isCallable v := decide (v = Value.obj 1)
  isJSRegExp v := decide (v = Value.obj 0)
  hasInitialRegExpMap _ v := decide (v = Value.obj 0)
  getProperty s v k := Except.ok (testPropRead s v k, s)
  setProperty s _ _ _ v := Except.ok (v, s)
  call s callee _ _ :=
    if callee = Value.obj 1 then Except.ok (Value.intV 42, s)
    else Except.ok (Value.null, s)
  regexpExecFunction := Value.obj 9
  lastIndexSlot s _ := s.slot
  setLastIndexSlot _ _ v := TestState.mk v

/-- C4: `AdvanceIndex` returns 1 or 2, and it returns 2 exactly when
full-unicode mode is on, the index is strictly before the end of the string,
the code unit there is a leading surrogate (0xD800-0xDBFF), a following
code unit exists, and that following unit is a trailing surrogate
(0xDC00-0xDFFF); in every other case it returns 1, and it is a total
function (it never fails). -/
theorem claim_C4 (string : Str) (index : Int) (unicode : Bool) :
    (RegExpUtils.AdvanceStringIndex string index unicode = 1 ∨
      RegExpUtils.AdvanceStringIndex string index unicode = 2) ∧
    (RegExpUtils.AdvanceStringIndex string index unicode = 2 ↔
      (unicode = true ∧ index < (string.length : Int) ∧
        (0xD800 ≤ RegExpUtils.strGetD string index ∧
          RegExpUtils.strGetD string index ≤ 0xDBFF) ∧
        index + 1 < (string.length : Int) ∧
        (0xDC00 ≤ RegExpUtils.strGetD string (index + 1) ∧
          RegExpUtils.strGetD string (index + 1) ≤ 0xDFFF))) := by
  constructor
  · simp only [RegExpUtils.AdvanceStringIndex]
    split_ifs <;> simp
  · simp only [RegExpUtils.AdvanceStringIndex]
    split_ifs with h1 h2 h3
    · exact iff_of_true rfl ⟨h1.1, h1.2, ⟨h2.1, h2.2.1⟩, h2.2.2, h3⟩
    · exact iff_of_false (by omega) (fun hr => h3 hr.2.2.2.2)
    · exact iff_of_false (by omega)
        (fun hr => h2 ⟨hr.2.2.1.1, hr.2.2.1.2, hr.2.2.2.1⟩)
    · exact iff_of_false (by omega) (fun hr => h1 ⟨hr.1, hr.2.1⟩)

/-- C5: `CaptureSubstring(i)` returns (empty, false) when `i*2` is at or
past the capture count; otherwise, with start/end read from the capture
pair, it returns (empty, false) when either is the -1 sentinel and
(substring(subject, start, end), true) otherwise. -/
theorem claim_C5 (m : MatchInfo) (i : Nat) :
    ((i : Int) * 2 ≥ RegExpUtils.GetLastMatchNumberOfCaptures m →
      RegExpUtils.GenericCaptureGetter m i = ([], false)) ∧
    ((i : Int) * 2 < RegExpUtils.GetLastMatchNumberOfCaptures m →
      (RegExpUtils.GetLastMatchCapture m ((i : Int) * 2) = -1 ∨
        RegExpUtils.GetLastMatchCapture m ((i : Int) * 2 + 1) = -1) →
      RegExpUtils.GenericCaptureGetter m i = ([], false)) ∧
    ((i : Int) * 2 < RegExpUtils.GetLastMatchNumberOfCaptures m →
      RegExpUtils.GetLastMatchCapture m ((i : Int) * 2) ≠ -1 →
      RegExpUtils.GetLastMatchCapture m ((i : Int) * 2 + 1) ≠ -1 →
      RegExpUtils.GenericCaptureGetter m i =
        (NewSubString (RegExpUtils.GetLastMatchSubject m)
          (RegExpUtils.GetLastMatchCapture m ((i : Int) * 2))
          (RegExpUtils.GetLastMatchCapture m ((i : Int) * 2 + 1)), true)) := by
  refine ⟨fun hge => ?_, fun hlt hsent => ?_, fun hlt hs he => ?_⟩
  · simp [RegExpUtils.GenericCaptureGetter, if_pos hge]
  · simp only [RegExpUtils.GenericCaptureGetter]
    rw [if_neg (by omega), if_pos hsent]
  · simp only [RegExpUtils.GenericCaptureGetter]
    rw [if_neg (by omega), if_neg (by tauto)]

/-- C5 witness: the spec scenario, capture group 0 of a MatchInfo with
capture count 4 and captures [0, 1, -1, -1]. -/
theorem claim_C5_witness :
    RegExpUtils.GenericCaptureGetter
        (MatchInfo.mk 4 [97, 98] (Value.strV [97, 98]) [0, 1, -1, -1]) 0 =
      (NewSubString
        (RegExpUtils.GetLastMatchSubject
          (MatchInfo.mk 4 [97, 98] (Value.strV [97, 98]) [0, 1, -1, -1]))
        (RegExpUtils.GetLastMatchCapture
          (MatchInfo.mk 4 [97, 98] (Value.strV [97, 98]) [0, 1, -1, -1]) ((0 : Nat) * 2))
        (RegExpUtils.GetLastMatchCapture
          (MatchInfo.mk 4 [97, 98] (Value.strV [97, 98]) [0, 1, -1, -1]) ((0 : Nat) * 2 + 1)),
        true) :=
  (claim_C5 (MatchInfo.mk 4 [97, 98] (Value.strV [97, 98]) [0, 1, -1, -1]) 0).2.2
    (by decide) (by decide) (by decide)

/-- An in-bounds checked string read succeeds and agrees with the total
read model. -/
theorem strGet_eq_some (s : Str) (i : Int) (h1 : 0 ≤ i)
    (h2 : i < (s.length : Int)) :
    RegExpUtils.strGet s i = some (RegExpUtils.strGetD s i) := by
  simp [RegExpUtils.strGet, RegExpUtils.strGetD, h1, h2]

/-- C10: under the precondition `0 ≤ index`, every `String::Get` the
advance function performs is in bounds — the bounds-checked instrumented
variant succeeds and agrees with the function — while a negative index is
not excluded by the guards of the function itself (the checked variant reads out
of bounds at index -1). -/
theorem claim_C10 (string : Str) (index : Int) (unicode : Bool)
    (h : 0 ≤ index) :
    RegExpUtils.AdvanceStringIndexChecked string index unicode
        = some (RegExpUtils.AdvanceStringIndex string index unicode) ∧
      RegExpUtils.AdvanceStringIndexChecked [65] (-1) true = none := by
  refine ⟨?_, by decide⟩
  simp only [RegExpUtils.AdvanceStringIndexChecked, RegExpUtils.AdvanceStringIndex]
  by_cases h1 : unicode = true ∧ index < (string.length : Int)
  · rw [if_pos h1, if_pos h1, strGet_eq_some string index h h1.2]
    dsimp only
    by_cases h2 : 0xD800 ≤ RegExpUtils.strGetD string index ∧
        RegExpUtils.strGetD string index ≤ 0xDBFF ∧
        (string.length : Int) > index + 1
    · rw [if_pos h2, if_pos h2,
        strGet_eq_some string (index + 1) (by omega) h2.2.2]
    · rw [if_neg h2, if_neg h2]
  · rw [if_neg h1, if_neg h1]

/-- C10 witness: a concrete in-bounds surrogate-pair read. -/
theorem claim_C10_witness :
    RegExpUtils.AdvanceStringIndexChecked [0xD800, 0xDC00] 0 true
        = some (RegExpUtils.AdvanceStringIndex [0xD800, 0xDC00] 0 true) ∧
      RegExpUtils.AdvanceStringIndexChecked [65] (-1) true = none :=
  claim_C10 [0xD800, 0xDC00] 0 true (by decide)

/-- C7: `GetLastIndex` and `SetLastIndex` use the always-succeeding
internal-slot read/write exactly when the receiver has the canonical
initial regexp map; every other receiver delegates to the generic host
property get/set under the `lastIndex` key, the write in STRICT mode, and
as the result is exactly the result of the host operation, errors from the
underlying property access propagate unchanged. -/
theorem claim_C7 {σ : Type} (h : Host σ) (s : σ) (recv : Value) (value : Int) :
    (h.hasInitialRegExpMap s recv = true →
      RegExpUtils.SetLastIndex h s recv value
          = Except.ok (recv, h.setLastIndexSlot s recv value) ∧
        RegExpUtils.GetLastIndex h s recv
          = Except.ok (Value.intV (h.lastIndexSlot s recv), s)) ∧
    (h.hasInitialRegExpMap s recv = false →
      RegExpUtils.SetLastIndex h s recv value
          = h.setProperty s LanguageMode.strict recv PropKey.lastIndexStr
              (Value.intV value) ∧
        RegExpUtils.GetLastIndex h s recv
          = h.getProperty s recv PropKey.lastIndexStr) := by
  constructor
  · intro hm
    exact ⟨by simp [RegExpUtils.SetLastIndex, hm], by simp [RegExpUtils.GetLastIndex, hm]⟩
  · intro hm
    exact ⟨by simp [RegExpUtils.SetLastIndex, hm], by simp [RegExpUtils.GetLastIndex, hm]⟩

/-- C7 witness: the concrete built-in receiver takes the slot paths. -/
theorem claim_C7_witness :
    RegExpUtils.SetLastIndex testHost (TestState.mk 0) (Value.obj 0) 5
        = Except.ok (Value.obj 0, testHost.setLastIndexSlot (TestState.mk 0) (Value.obj 0) 5) ∧
      RegExpUtils.GetLastIndex testHost (TestState.mk 0) (Value.obj 0)
        = Except.ok (Value.intV (testHost.lastIndexSlot (TestState.mk 0) (Value.obj 0)),
            TestState.mk 0) :=
  (claim_C7 testHost (TestState.mk 0) (Value.obj 0) 5).1 (by decide)

/-- C6: `IsRegExpLike` answers false on primitives; true without any
lookup on the canonical initial-map fast path; otherwise it looks up the
match-capability property, propagates lookup errors, answers the boolean
coercion of a defined value, and falls back to the structural built-in
tag when the value is undefined. -/
theorem claim_C6 {σ : Type} (h : Host σ) (s : σ) (object : Value) :
    (object.isJSReceiver = false →
      RegExpUtils.IsRegExp h s object = Except.ok (false, s)) ∧
    (object.isJSReceiver = true → h.hasInitialRegExpMap s object = true →
      RegExpUtils.IsRegExp h s object = Except.ok (true, s)) ∧
    (object.isJSReceiver = true → h.hasInitialRegExpMap s object = false →
      (∀ e, h.getProperty s object PropKey.matchSymbol = Except.error e →
        RegExpUtils.IsRegExp h s object = Except.error e) ∧
      (∀ vm s₁, h.getProperty s object PropKey.matchSymbol = Except.ok (vm, s₁) →
        (vm ≠ Value.undefined →
          RegExpUtils.IsRegExp h s object = Except.ok (BooleanValue vm, s₁)) ∧
        (vm = Value.undefined →
          RegExpUtils.IsRegExp h s object
            = Except.ok (h.isJSRegExp object, s₁)))) := by
  refine ⟨fun hp => ?_, fun hr hm => ?_, fun hr hm => ⟨fun e he => ?_, fun vm s₁ hv => ?_⟩⟩
  · simp [RegExpUtils.IsRegExp, hp]
  · simp [RegExpUtils.IsRegExp, hr, hm]
  · simp only [RegExpUtils.IsRegExp]
    rw [if_neg (by simp [hr]), if_neg (by simp [hm]), he]
  · refine ⟨fun hdef => ?_, fun hundef => ?_⟩
    · simp only [RegExpUtils.IsRegExp]
      rw [if_neg (by simp [hr]), if_neg (by simp [hm]), hv]
      dsimp only
      rw [if_pos hdef]
    · simp only [RegExpUtils.IsRegExp]
      rw [if_neg (by simp [hr]), if_neg (by simp [hm]), hv]
      dsimp only
      rw [if_neg (by simp [hundef])]

/-- C6 witness: a primitive (string) value is not regexp-like. -/
theorem claim_C6_witness :
    RegExpUtils.IsRegExp testHost (TestState.mk 0) (Value.strV [])
      = Except.ok (false, TestState.mk 0) :=
  (claim_C6 testHost (TestState.mk 0) (Value.strV [])).1 (by decide)

/-- C1: with a callable resolved exec value (an explicit override, or the
looked-up `exec` property when none was supplied), `Exec` propagates call
errors unchanged, fails with `kInvalidRegExpExecResult` when the call
returns a value that is neither object-shaped nor null, and returns an
object-shaped or null result unchanged. -/
theorem claim_C1 {σ : Type} (h : Host σ) (s s₁ : σ) (regexp : Value)
    (string : Str) (execArg execR : Value)
    (hres : (execArg ≠ Value.undefined ∧ execR = execArg ∧ s₁ = s) ∨
      (execArg = Value.undefined ∧
        h.getProperty s regexp PropKey.execStr = Except.ok (execR, s₁)))
    (hc : h.isCallable execR = true) :
    (∀ e, h.call s₁ execR regexp [Value.strV string] = Except.error e →
      RegExpUtils.RegExpExec h s regexp string execArg = Except.error e) ∧
    (∀ v s₂, h.call s₁ execR regexp [Value.strV string] = Except.ok (v, s₂) →
      (v.isJSReceiver = false ∧ v ≠ Value.null →
        RegExpUtils.RegExpExec h s regexp string execArg
          = Except.error
              (JSError.typeError MessageTemplate.kInvalidRegExpExecResult [])) ∧
      (v.isJSReceiver = true ∨ v = Value.null →
        RegExpUtils.RegExpExec h s regexp string execArg
          = Except.ok (v, s₂))) := by
  have hstep : RegExpUtils.RegExpExec h s regexp string execArg =
      (match h.call s₁ execR regexp [Value.strV string] with
        | Except.error e => Except.error e
        | Except.ok (result, sB) =>
          if ¬ result.isJSReceiver ∧ result ≠ Value.null then
            Except.error
              (JSError.typeError MessageTemplate.kInvalidRegExpExecResult [])
          else Except.ok (result, sB)) := by
    simp only [RegExpUtils.RegExpExec]
    rcases hres with ⟨hne, hrE, hrS⟩ | ⟨hu, hg⟩
    · subst hrE; subst hrS
      rw [if_neg hne]
      dsimp only
      rw [if_pos hc]
    · subst hu
      rw [if_pos rfl, hg]
      dsimp only
      rw [if_pos hc]
  refine ⟨fun e he => ?_, fun v s₂ hv => ⟨fun hbad => ?_, fun hgood => ?_⟩⟩
  · rw [hstep, he]
  · rw [hstep, hv]
    dsimp only
    rw [if_pos ⟨by simp [hbad.1], hbad.2⟩]
  · rw [hstep, hv]
    dsimp only
    rw [if_neg (by rcases hgood with hg | hg <;> simp [hg])]

/-- C1 witness: a callable override returning the number 42 makes the
concrete exec fail with the invalid-result error. -/
theorem claim_C1_witness :
    RegExpUtils.RegExpExec testHost (TestState.mk 0) (Value.obj 0) [97] (Value.obj 1)
      = Except.error (JSError.typeError MessageTemplate.kInvalidRegExpExecResult []) :=
  ((claim_C1 testHost (TestState.mk 0) (TestState.mk 0) (Value.obj 0) [97]
      (Value.obj 1) (Value.obj 1) (Or.inl ⟨by decide, rfl, rfl⟩) (by decide)).2
    (Value.intV 42) (TestState.mk 0) (by decide)).1 (by decide)

/-- C2: with a non-callable resolved exec value, a receiver that is not
structurally a built-in regexp makes `Exec` fail with the
incompatible-receiver error naming `RegExp.prototype.exec`, while a
built-in receiver has the built-in matching engine invoked directly on
the receiver and string, with its result or error returned unchanged. -/
theorem claim_C2 {σ : Type} (h : Host σ) (s s₁ : σ) (regexp : Value)
    (string : Str) (execArg execR : Value)
    (hres : (execArg ≠ Value.undefined ∧ execR = execArg ∧ s₁ = s) ∨
      (execArg = Value.undefined ∧
        h.getProperty s regexp PropKey.execStr = Except.ok (execR, s₁)))
    (hnc : h.isCallable execR = false) :
    (h.isJSRegExp regexp = false →
      RegExpUtils.RegExpExec h s regexp string execArg
        = Except.error (JSError.typeError MessageTemplate.kIncompatibleMethodReceiver
            [Value.strV (asciiStr "RegExp.prototype.exec"), regexp])) ∧
    (h.isJSRegExp regexp = true →
      RegExpUtils.RegExpExec h s regexp string execArg
        = h.call s₁ h.regexpExecFunction regexp [Value.strV string]) := by
  have hstep : RegExpUtils.RegExpExec h s regexp string execArg =
      (if ¬ h.isJSRegExp regexp then
        Except.error (JSError.typeError MessageTemplate.kIncompatibleMethodReceiver
          [Value.strV (asciiStr "RegExp.prototype.exec"), regexp])
      else h.call s₁ h.regexpExecFunction regexp [Value.strV string]) := by
    simp only [RegExpUtils.RegExpExec]
    rcases hres with ⟨hne, hrE, hrS⟩ | ⟨hu, hg⟩
    · subst hrE; subst hrS
      rw [if_neg hne]
      dsimp only
      rw [if_neg (by simp [hnc])]
    · subst hu
      rw [if_pos rfl, hg]
      dsimp only
      rw [if_neg (by simp [hnc])]
  refine ⟨fun hn => ?_, fun hy => ?_⟩
  · rw [hstep, if_pos (by simp [hn])]
  · rw [hstep, if_neg (by simp [hy])]

/-- C2 witness: a non-callable override on a plain (non-regexp) object
receiver gives the incompatible-receiver error. -/
theorem claim_C2_witness :
    RegExpUtils.RegExpExec testHost (TestState.mk 0) (Value.obj 5) [97] Value.null
      = Except.error (JSError.typeError MessageTemplate.kIncompatibleMethodReceiver
          [Value.strV (asciiStr "RegExp.prototype.exec"), Value.obj 5]) :=
  (claim_C2 testHost (TestState.mk 0) (TestState.mk 0) (Value.obj 5) [97]
      Value.null Value.null (Or.inl ⟨by decide, rfl, rfl⟩) (by decide)).1 (by decide)

/-- C9: `Exec` performs no write of its own — its only state transitions
are the host property lookup and the host calls, so every state predicate
preserved by those host operations is preserved across a normally
returning `Exec`. -/
theorem claim_C9 {σ : Type} (h : Host σ) (P : σ → Prop)
    (hget : ∀ s v k v₂ s₂, h.getProperty s v k = Except.ok (v₂, s₂) → P s → P s₂)
    (hcall : ∀ s f t a v₂ s₂, h.call s f t a = Except.ok (v₂, s₂) → P s → P s₂) :
    ∀ s regexp string execArg v s₂,
      RegExpUtils.RegExpExec h s regexp string execArg = Except.ok (v, s₂) →
        P s → P s₂ := by
  intro s regexp string execArg v s₂ hrun hp
  rw [RegExpUtils.RegExpExec] at hrun
  cases hR : (if execArg = Value.undefined then h.getProperty s regexp PropKey.execStr
      else Except.ok (execArg, s)) with
  | error e =>
    rw [hR] at hrun
    exact Except.noConfusion hrun
  | ok p =>
    obtain ⟨execV, sA⟩ := p
    rw [hR] at hrun
    dsimp only at hrun
    have hpA : P sA := by
      by_cases hu : execArg = Value.undefined
      · rw [if_pos hu] at hR
        exact hget s regexp PropKey.execStr execV sA hR hp
      · rw [if_neg hu] at hR
        simp only [Except.ok.injEq, Prod.mk.injEq] at hR
        exact hR.2 ▸ hp
    by_cases hc : h.isCallable execV = true
    · rw [if_pos hc] at hrun
      cases hC : h.call sA execV regexp [Value.strV string] with
      | error e =>
        rw [hC] at hrun
        exact Except.noConfusion hrun
      | ok q =>
        obtain ⟨r, sB⟩ := q
        rw [hC] at hrun
        dsimp only at hrun
        have hpB : P sB := hcall sA execV regexp [Value.strV string] r sB hC hpA
        by_cases hbad : ¬ r.isJSReceiver ∧ r ≠ Value.null
        · rw [if_pos hbad] at hrun
          exact Except.noConfusion hrun
        · rw [if_neg hbad] at hrun
          simp only [Except.ok.injEq, Prod.mk.injEq] at hrun
          exact hrun.2 ▸ hpB
    · rw [if_neg hc] at hrun
      by_cases hrx : ¬ h.isJSRegExp regexp
      · rw [if_pos hrx] at hrun
        exact Except.noConfusion hrun
      · rw [if_neg hrx] at hrun
        exact hcall sA h.regexpExecFunction regexp [Value.strV string] v s₂ hrun hpA

/-- C9 witness: over the concrete host, whose property reads and calls
leave the state unchanged, a normally returning exec preserves the
predicate that the slot is 0. -/
theorem claim_C9_witness : (TestState.mk 0).slot = 0 :=
  claim_C9 testHost (fun st => st.slot = 0)
    (fun s v k v₂ s₂ hh hp => by
      simp only [testHost] at hh
      simp only [Except.ok.injEq, Prod.mk.injEq] at hh
      exact hh.2 ▸ hp)
    (fun s f t a v₂ s₂ hh hp => by
      simp only [testHost] at hh
      split at hh <;>
        (simp only [Except.ok.injEq, Prod.mk.injEq] at hh; exact hh.2 ▸ hp))
    (TestState.mk 0) (Value.obj 0) [97] Value.null Value.null (TestState.mk 0)
    (by decide) rfl

/-- C8: the length coercion itself does map the `lastIndex` value into
`[0, 2^53 - 1]` — at the input 2^40 the coerced value is 2^40, in range
exactly as the claim states — but the program then reads the coercion
result through the `Handle<Smi>::cast` at `regexp-utils.cc:222`, which
is only defined for Smi-range values: evaluated at a receiver whose
`lastIndex` reads 2^40, the composite operation fails at the cast
(modelled `none`) and the full-range coerced value is never handed to
`AdvanceIndex` or the write-back addition. -/
theorem claim_C8 :
    (0 ≤ ToLength (Value.intV (2 ^ 40)) ∧
      ToLength (Value.intV (2 ^ 40)) ≤ 2 ^ 53 - 1 ∧
      ToLength (Value.intV (2 ^ 40)) = 2 ^ 40) ∧
    RegExpUtils.SetAdvancedStringIndex testHost (TestState.mk (2 ^ 40))
        (Value.obj 0) [97] false = none := by
  exact ⟨⟨by decide, by decide, by decide⟩, by decide⟩
